import Mathlib

/- Restore the default reducibility of the kernel-computable rational
primitives so that concrete rational computations can be closed by kernel
evaluation (plain `decide` / `rfl`). -/
unseal Rat.add Rat.mul Rat.sub Rat.inv Rat.ofScientific

/-!
Verification development for the weather / air-quality aggregation server
(`bk-server.js` and its sibling server file).

Modelling conventions:
* JavaScript numbers are modelled as exact rationals (`ℚ`) extended with a
  `NaN` element (`JNum`).  All the decimal values handled by the program are
  exact decimals, so `ℚ` arithmetic is the intended idealisation of the
  floating-point arithmetic in the source.
* `Number.prototype.toFixed(f)` picks the integer n minimising |n / 10^f - x|
  and on ties picks the larger n, i.e. round-half-towards-plus-infinity.
  `round1` below implements exactly that for one decimal.
* Absent (`undefined`) upstream fields become `Option.none`, and the JS
  expressions `a ?? b`, `a || 0`, `a + b` (with `undefined + x = NaN`) are
  modelled explicitly.
* `res.json` serialises the JS value `NaN` as the JSON literal `null`;
  `jsonNumField` models that final serialisation step for a numeric field.
-/

/-- Round-half-up to an integer: the `toFixed(0)` / `Math.round` rule
(`Rat.floor` is the floor function, kept in its computable form). -/
def jsRoundZ (q : ℚ) : ℤ := (q + 1/2).floor

/-- One-decimal rounding: the `+x.toFixed(1)` idiom used throughout the code. -/
def round1 (q : ℚ) : ℚ := (jsRoundZ (q * 10) : ℚ) / 10

/-- A JavaScript number: an exact rational or NaN. -/
inductive JNum where
  | num (q : ℚ)
  | nan
  deriving DecidableEq

/-- JS `+` on numbers: NaN is absorbing. -/
def jadd : JNum → JNum → JNum
  | .num a, .num b => .num (a + b)
  | _, _ => .nan

/-- Subtract a rational constant from a JS number. -/
def jsubC : JNum → ℚ → JNum
  | .num a, c => .num (a - c)
  | .nan, _ => .nan

/-- `+x.toFixed(1)` on a JS number; `NaN.toFixed(1)` reparses to NaN. -/
def jfix1 : JNum → JNum
  | .num q => .num (round1 q)
  | .nan => .nan

/-- JS `<` on a number against a rational constant: false on NaN. -/
def jlt : JNum → ℚ → Bool
  | .num a, c => decide (a < c)
  | .nan, _ => false

/-- JS `<=` on a number against a rational constant: false on NaN. -/
def jle : JNum → ℚ → Bool
  | .num a, c => decide (a ≤ c)
  | .nan, _ => false

/-- JS `undefined + undefined / undefined + x` addition of two optional
numbers, as in `(raw?.temperature?.min + raw?.temperature?.max)`. -/
def jaddOpt2 : Option ℚ → Option ℚ → JNum
  | some a, some b => .num (a + b)
  | _, _ => .nan

/-- How `res.json` serialises a JS numeric field that may be `null` or `NaN`:
`null` and `NaN` both render as the JSON literal `null`. -/
def jsonNumField : Option JNum → Option ℚ
  | none => none
  | some .nan => none
  | some (.num q) => some q

/-!
## Upstream day-summary payloads and `normalizeDaySummary`

The One Call `day_summary` payload is untrusted: every probed field may be
absent.  `RawRain.obj` covers the case where `raw.rain` is an object (with or
without a `total` member) rather than a plain number.
-/

structure RawTemp where
  day : Option ℚ
  average : Option ℚ
  min : Option ℚ
  max : Option ℚ
  deriving DecidableEq

structure RawWindMax where
  speed : Option ℚ
  deriving DecidableEq

structure RawWind where
  max : Option RawWindMax
  max_speed : Option ℚ
  deriving DecidableEq

structure RawPrecip where
  total : Option ℚ
  deriving DecidableEq

inductive RawRain where
  | absent
  | num (q : ℚ)
  | obj (total : Option ℚ)
  deriving DecidableEq

structure RawDay where
  temperature : Option RawTemp
  wind : Option RawWind
  wind_speed_max : Option ℚ
  wind_speed : Option ℚ
  precipitation : Option RawPrecip
  rain : RawRain
  deriving DecidableEq

/-- The fully-absent payload. -/
def emptyRaw : RawDay := ⟨none, none, none, none, none, .absent⟩

/-- `raw?.temperature?.day ?? raw?.temperature?.average ??
((raw?.temperature?.min + raw?.temperature?.max) / 2) ?? null`.
The midpoint arm is a JS addition of two possibly-`undefined` values, so it is
always a number (possibly NaN) and the trailing `?? null` never fires. -/
def tempAvgOf (raw : RawDay) : JNum :=
  match raw.temperature with
  | none => jaddOpt2 none none
  | some t =>
    match t.day with
    | some v => .num v
    | none =>
      match t.average with
      | some v => .num v
      | none =>
        match jaddOpt2 t.min t.max with
        | .num s => .num (s / 2)
        | .nan => .nan

/-- `raw?.wind?.max?.speed ?? raw?.wind?.max_speed ?? raw?.wind_speed_max ??
raw?.wind_speed ?? 0`. -/
def windMaxOf (raw : RawDay) : ℚ :=
  (((raw.wind.bind RawWind.max).bind RawWindMax.speed).orElse
    (fun _ => (raw.wind.bind RawWind.max_speed).orElse
      (fun _ => raw.wind_speed_max.orElse (fun _ => raw.wind_speed)))).getD 0

/-- `raw?.precipitation?.total ?? raw?.rain?.total ?? raw?.rain ?? 0`,
followed by the coercion `Number(rainTotal || 0)`:
* a number falls through unchanged (`q || 0` only rewrites `0` to `0`),
* an object without `total` survives the `??` chain, is truthy, and
  `Number(object)` is NaN,
* full absence gives the `?? 0` default. -/
def rainOf (raw : RawDay) : JNum :=
  match raw.precipitation.bind RawPrecip.total with
  | some v => .num v
  | none =>
    match raw.rain with
    | .num q => .num q
    | .obj (some t) => .num t
    | .obj none => .nan
    | .absent => .num 0

/-- A canonical per-day record.  `day` is left polymorphic because the
day-summary path stamps a `YYYY-MM-DD` string while the slot-bucketing path is
modelled with a numeric UTC-day key. -/
structure DaySum (δ : Type) where
  day : δ
  temp_avg_c : Option JNum
  wind_max_ms : JNum
  rain_mm : JNum
  deriving DecidableEq

/-- `normalizeDaySummary(dateStr, raw)` from the second server file; the inline
mapping in the `/weather3` route of `bk-server.js` is character-for-character
the same computation.  `tempAvg != null` always holds (the midpoint arm yields
a number or NaN, never null), so `temp_avg_c` is `some` of a JS number. -/
def normalizeDaySummary (dateStr : String) (raw : RawDay) : DaySum String :=
  { day := dateStr
    temp_avg_c := some (jfix1 (tempAvgOf raw))
    wind_max_ms := .num (round1 (windMaxOf raw))
    rain_mm := jfix1 (rainOf raw) }

/-- The row pushed by the `/weather3` per-date `catch` branch:
`{ day: date, temp_avg_c: null, wind_max_ms: 0, rain_mm: 0 }`. -/
def defaultRow (date : String) : DaySum String :=
  { day := date, temp_avg_c := none, wind_max_ms := .num 0, rain_mm := .num 0 }

/-- Re-normalisation: a `DaySum` offered back to `normalizeDaySummary` as a raw
payload.  A `DaySum` record carries the keys `day`, `temp_avg_c`,
`wind_max_ms`, `rain_mm`; none of the candidate paths probed by the normaliser
(`temperature.*`, `wind.*`, `wind_speed_max`, `wind_speed`,
`precipitation.total`, `rain`) exists on it, so the raw view is fully absent. -/
def dayToRaw (_ : DaySum String) : RawDay := emptyRaw

/-- Applying the normaliser to its own output. -/
def renormalize (d : DaySum String) : DaySum String :=
  normalizeDaySummary d.day (dayToRaw d)

/-!
## The `/weather3` per-date loop

Each date in `nextNDatesUTC(3)` is fetched independently.  A fetch either
yields a raw payload or throws with an optional HTTP status
(`e?.response?.status`): 401/403 abort the whole request with that status,
anything else yields the default row for that date.
-/

inductive FetchOutcome where
  | ok (raw : RawDay)
  | err (status : Option Nat)

/-- `s === 401 || s === 403`. -/
def isAuthStatus : Option Nat → Bool
  | some 401 => true
  | some 403 => true
  | _ => false

def isAuthOutcome : FetchOutcome → Bool
  | .err s => isAuthStatus s
  | .ok _ => false

/-- The row the loop body produces for one date when it does not abort. -/
def rowOf : String × FetchOutcome → DaySum String
  | (date, .ok raw) => normalizeDaySummary date raw
  | (date, .err _) => defaultRow date

/-- The `/weather3` per-date loop over (date, fetch outcome) pairs:
`Except.error s` models the early `return res.status(s).json(...)` on an
authorization failure, `Except.ok rows` the accumulated `out` array. -/
def weather3Loop : List (String × FetchOutcome) → Except Nat (List (DaySum String))
  | [] => .ok []
  | (date, .ok raw) :: rest =>
    (weather3Loop rest).map (fun rows => normalizeDaySummary date raw :: rows)
  | (date, .err s) :: rest =>
    if isAuthStatus s then .error (s.getD 0)
    else (weather3Loop rest).map (fun rows => defaultRow date :: rows)

/-!
## Packing advice

`packingAdvice` in `bk-server.js` filters `temp_avg_c` by
`typeof v === "number"` (keeping NaN, dropping `null`), yields `null` /
`"Unknown"` on an empty filter result, and otherwise bands the mean.
`packingAdviceP1` is the function of the same name in the second server file:
it has no `null`/`Unknown` handling at all, JS-coerces a `null` temperature to
0 inside the running sum while still dividing by the full day count, and on an
empty list computes `0/0 = NaN`.
-/

/-- `temps.reduce((a,b)=>a+b, 0)`. -/
def jsum (l : List JNum) : JNum := l.foldl jadd (.num 0)

/-- Division of a running JS sum by a JS array length; the only way the length
can be 0 here is the empty `reduce` base (sum 0), and `0/0` is NaN. -/
def jdivLen (a : JNum) (n : Nat) : JNum :=
  if n = 0 then .nan
  else match a with
    | .num q => .num (q / n)
    | .nan => .nan

/-- `(d.rain_mm || 0) > 0`: NaN is falsy, so it collapses to `0 > 0`. -/
def rainPos : JNum → Bool
  | .num q => decide (0 < q)
  | .nan => false

structure Advice where
  umbrella : Bool
  packing : String
  mean_temp_c : Option JNum
  deriving DecidableEq

/-- `packingAdvice(days)` from `bk-server.js` (lines 61–67). -/
def packingAdvice {δ : Type} (days : List (DaySum δ)) : Advice :=
  let umbrella := days.any (fun d => rainPos d.rain_mm)
  let temps : List JNum := days.filterMap (fun d => d.temp_avg_c)
  let mean : Option JNum :=
    if temps.length = 0 then none else some (jdivLen (jsum temps) temps.length)
  let packing :=
    match mean with
    | none => "Unknown"
    | some m => if jlt m 8 then "Cold" else if jle m 24 then "Mild" else "Hot"
  { umbrella := umbrella, packing := packing, mean_temp_c := mean.map jfix1 }

structure AdviceS where
  umbrella : Bool
  packing : String
  mean_temp_c : JNum
  deriving DecidableEq

/-- JS `s + d.temp_avg_c` where the field may be `null`: `x + null = x`. -/
def jaddNull (s : JNum) : Option JNum → JNum
  | none => s
  | some j => jadd s j

/-- `packingAdvice(summaries)` from the second server file (lines 42–47). -/
def packingAdviceP1 {δ : Type} (summaries : List (DaySum δ)) : AdviceS :=
  let umbrella := summaries.any (fun d => rainPos d.rain_mm)
  let mean : JNum :=
    jdivLen (summaries.foldl (fun s d => jaddNull s d.temp_avg_c) (.num 0))
      summaries.length
  let packing := if jlt mean 8 then "Cold" else if jle mean 24 then "Mild" else "Hot"
  { umbrella := umbrella, packing := packing, mean_temp_c := jfix1 mean }

/-!
## Pollution alerts

`GOOD` / `GOOD_THRESHOLDS` list the six pollutants in insertion order; both
alert loops iterate `Object.keys` of that table, so alert order follows the
table.  `key.toUpperCase().replace("_","")` canonicalises the key name
(each key holds at most one underscore).
-/

inductive PKey where
  | pm2_5 | pm10 | no2 | so2 | o3 | co
  deriving DecidableEq

/-- `Object.keys(GOOD)` iteration order. -/
def goodKeys : List PKey := [.pm2_5, .pm10, .no2, .so2, .o3, .co]

/-- The fixed Good thresholds (µg/m³). -/
def goodThreshold : PKey → ℚ
  | .pm2_5 => 12
  | .pm10 => 54
  | .no2 => 53
  | .so2 => 35
  | .o3 => 70
  | .co => 4400

/-- `key.toUpperCase().replace("_","")` evaluated on each table key. -/
def pollutantName : PKey → String
  | .pm2_5 => "PM25"
  | .pm10 => "PM10"
  | .no2 => "NO2"
  | .so2 => "SO2"
  | .o3 => "O3"
  | .co => "CO"

/-- The `risks` table of `buildPollutionAlerts`. -/
def riskText : PKey → String
  | .pm2_5 => "Fine particles can penetrate deep into lungs; sensitive groups at risk."
  | .pm10 => "Coarse particles may irritate airways; sensitive people may feel effects."
  | .no2 => "Can irritate airways; people with asthma are at greater risk."
  | .so2 => "May cause respiratory symptoms; consider limiting prolonged exertion."
  | .o3 => "Can cause throat irritation and coughing; reduce outdoor exertion."
  | .co => "High levels reduce oxygen delivery; headache and fatigue possible."

/-- One alert from `buildPollutionAlerts`.  The source renders `elevOver` and
`elevPct` into the single template string
`elevation: (over) microg/m3 (~(pct)% of Good max)`; the record keeps the two
numbers that string displays. -/
structure PollutantAlert where
  pollutant : String
  value : ℚ
  good_max : ℚ
  elevOver : ℚ
  elevPct : ℤ
  risk : String
  deriving DecidableEq

/-- A components mapping: pollutant key to concentration when present. -/
def CompMap : Type := PKey → Option ℚ

/-- `buildPollutionAlerts(components)` from the second server file
(lines 59–86).  `if (!components) return []` handles a null mapping; then for
each key in table order a present numeric value strictly above the threshold
emits an alert carrying the value rounded to 1 decimal, the threshold, the
rounded elevation, the percentage `+((val/threshold)*100).toFixed(0)` and the
risk text. -/
def buildPollutionAlerts (components : Option CompMap) : List PollutantAlert :=
  match components with
  | none => []
  | some c =>
    goodKeys.filterMap (fun k =>
      match c k with
      | some v =>
        if goodThreshold k < v then
          some { pollutant := pollutantName k
                 value := round1 v
                 good_max := goodThreshold k
                 elevOver := round1 (v - goodThreshold k)
                 elevPct := jsRoundZ (v / goodThreshold k * 100)
                 risk := riskText k }
        else none
      | none => none)

/-!
## Time bucketing

Both summarisers key samples by
`new Date(item.dt * 1000).toISOString().slice(0, 10)`, the UTC calendar date of
the UNIX timestamp.  For any representable timestamp the resulting
`YYYY-MM-DD` string (zero-padded, 4-digit year) is equal to / lexicographically
below another exactly when the UTC day number `dt / 86400` is equal / below, so
the key is modelled by that day number; the upstream forecast timestamps are
non-negative.  Object string keys enumerate in insertion order, and both
summarisers immediately `sort()` them lexicographically and `slice(0, 3)`.
-/

/-- UTC day key of a UNIX timestamp (quotient model of the `YYYY-MM-DD` key). -/
def dayKeyOf (dt : Nat) : Nat := dt / 86400

/-- `Object.keys(byDay).sort().slice(0, 3)`: the distinct keys, sorted
ascending, first three. -/
def sortedKeys (keys : List Nat) : List Nat :=
  ((keys.dedup).insertionSort (· ≤ ·)).take 3

/-- `Math.max(...l)` for a list that the caller knows is non-empty (every
bucket contains the sample that created it); the empty case never arises. -/
def jsMaxD : List ℚ → ℚ
  | [] => 0
  | x :: xs => xs.foldl max x

/-- JS summation of an array that may contain `undefined` entries
(`temps.reduce((a,b)=>a+b, 0)` where `undefined` was pushed for slots without
a temperature): one absent entry poisons the whole sum to NaN. -/
def jsumOpt (l : List (Option ℚ)) : JNum :=
  l.foldl (fun a t => match t with | some q => jadd a (.num q) | none => .nan) (.num 0)

/-- One 3-hour forecast slot (`/2.5/forecast` list item): `main?.temp`,
`wind?.speed`, `rain?.["3h"]` may each be absent. -/
structure Slot where
  dt : Nat
  temp : Option ℚ
  windSpeed : Option ℚ
  rain3h : Option ℚ
  deriving DecidableEq

/-- `K2C = k => +(k - 273.15).toFixed(1)` applied to the (possibly NaN)
Kelvin mean. -/
def K2C (j : JNum) : JNum := jfix1 (jsubC j (27315/100))

/-- The summary built for one day bucket of `summarizeThreeDays`. -/
def slotDaySummary (k : Nat) (items : List Slot) : DaySum Nat :=
  { day := k
    temp_avg_c := some (K2C (jdivLen (jsumOpt (items.map Slot.temp)) items.length))
    wind_max_ms := .num (round1 (jsMaxD (items.map (fun i => i.windSpeed.getD 0))))
    rain_mm := .num (round1 ((items.map (fun i => i.rain3h.getD 0)).sum)) }

/-- `summarizeThreeDays(list)` from the second server file (lines 17–40):
bucket the slots by UTC day, keep the three earliest days, and aggregate each
bucket (Kelvin mean via `K2C`, max wind with `?? 0`, summed `rain["3h"]` with
`?? 0`).  A bucket's members appear in list order, i.e. they are exactly the
slots whose key matches. -/
def summarizeThreeDays (list : List Slot) : List (DaySum Nat) :=
  (sortedKeys (list.map (fun i => dayKeyOf i.dt))).map
    (fun k => slotDaySummary k (list.filter (fun i => dayKeyOf i.dt = k)))

/-!
## Air-quality summary (`summarizeAirForecast`, bk-server.js lines 73–116)
-/

/-- One hourly air-pollution forecast item: `main?.aqi` and `components` may
be absent. -/
structure AirItem where
  dt : Nat
  aqi : Option ℚ
  components : Option CompMap

/-- One alert of the `/air3` loop (no elevation/risk fields there). -/
structure AirAlert where
  pollutant : String
  value_max : ℚ
  good_max : ℚ
  deriving DecidableEq

structure AirDay where
  day : Nat
  aqi_max : ℚ
  alerts : List AirAlert
  deriving DecidableEq

/-- Per-pollutant max over a day's component records:
`maxComp[key] = Math.max(maxComp[key] ?? -Infinity, v)` over present numeric
values; a key never assigned stays absent (`typeof undefined` fails the later
check). -/
def maxComp (comps : List CompMap) (k : PKey) : Option ℚ :=
  match comps.filterMap (fun c => c k) with
  | [] => none
  | v :: vs => some (vs.foldl max v)

/-- The summary built for one day bucket of `summarizeAirForecast`:
`aqi` collects `item?.main?.aqi ?? 1` for every sample of the day, and the
alerts loop emits `{pollutant, value_max, good_max}` for each table key whose
per-day max strictly exceeds its threshold. -/
def airDaySummary (k : Nat) (items : List AirItem) : AirDay :=
  { day := k
    aqi_max := jsMaxD (items.map (fun i => i.aqi.getD 1))
    alerts :=
      goodKeys.filterMap (fun key =>
        match maxComp (items.filterMap AirItem.components) key with
        | some v =>
          if goodThreshold key < v then
            some { pollutant := pollutantName key
                   value_max := round1 v
                   good_max := goodThreshold key }
          else none
        | none => none) }

/-- `summarizeAirForecast(list)`. -/
def summarizeAirForecast (list : List AirItem) : List AirDay :=
  (sortedKeys (list.map (fun i => dayKeyOf i.dt))).map
    (fun k => airDaySummary k (list.filter (fun i => dayKeyOf i.dt = k)))

/-!
## `nextNDatesUTC`

`nextNDatesUTC(n)` starts from the current UTC midnight and renders the next
`n` calendar days as `YYYY-MM-DD` (via the UTC accessors of `Date`, with
`String(..).padStart(2, "0")` on month and day).  `Date`'s `setUTCDate`
arithmetic is the proleptic Gregorian calendar, modelled by `nextDay` below;
the request's current UTC date is a parameter (`start`).  Decimal rendering of
`String(n)` is modelled by `natChars` (fuel-based so that it computes by
`decide`).
-/

/-- Decimal digits of a natural number, most significant first; `fuel`-based
recursion (the canonical entry point `natDigits` supplies enough fuel). -/
def digitsAux : Nat → Nat → List Nat
  | 0, _ => []
  | fuel + 1, n => if n < 10 then [n] else digitsAux fuel (n / 10) ++ [n % 10]

/-- Decimal digits of `n`, most significant first. -/
def natDigits (n : Nat) : List Nat := digitsAux (n + 1) n

/-- The character list of JS `String(n)` for a natural number. -/
def natChars (n : Nat) : List Char := (natDigits n).map Nat.digitChar

/-- `String(n).padStart(2, "0")`: a one-character rendering gets a leading
zero (`String(n)` is never empty). -/
def pad2L (n : Nat) : List Char := if n < 10 then '0' :: natChars n else natChars n

structure CivilDate where
  y : Nat
  m : Nat
  d : Nat
  deriving DecidableEq

def isLeap (y : Nat) : Bool := y % 4 = 0 && (y % 100 ≠ 0 || y % 400 = 0)

def daysInMonth (y m : Nat) : Nat :=
  if m = 2 then (if isLeap y then 29 else 28)
  else if m = 4 ∨ m = 6 ∨ m = 9 ∨ m = 11 then 30
  else 31

/-- `d.setUTCDate(d.getUTCDate() + 1)`: the next Gregorian calendar day. -/
def nextDay (c : CivilDate) : CivilDate :=
  if c.d < daysInMonth c.y c.m then ⟨c.y, c.m, c.d + 1⟩
  else if c.m < 12 then ⟨c.y, c.m + 1, 1⟩
  else ⟨c.y + 1, 1, 1⟩

/-- `i` days after `start` (`d.setUTCDate(start.getUTCDate() + i)`). -/
def addDays (start : CivilDate) : Nat → CivilDate
  | 0 => start
  | i + 1 => nextDay (addDays start i)

/-- The strict chronological order on civil dates. -/
def dateLt (a b : CivilDate) : Prop :=
  a.y < b.y ∨ (a.y = b.y ∧ (a.m < b.m ∨ (a.m = b.m ∧ a.d < b.d)))

/-- The characters of the template `(y)-(m)-(day)` with padded month and day. -/
def fmtDateL (c : CivilDate) : List Char :=
  natChars c.y ++ '-' :: (pad2L c.m ++ '-' :: pad2L c.d)

/-- The rendered `YYYY-MM-DD` string. -/
def fmtDate (c : CivilDate) : String := ⟨fmtDateL c⟩

/-- The civil dates the loop of `nextNDatesUTC(n)` walks through. -/
def dateSeq (start : CivilDate) (n : Nat) : List CivilDate :=
  (List.range n).map (addDays start)

/-- `nextNDatesUTC(n)` as a function of the request's current UTC date. -/
def nextNDatesUTC (start : CivilDate) (n : Nat) : List String :=
  (dateSeq start n).map fmtDate

/-!
## `/pack` response cleaning and JSON extraction (bk-server.js lines 346–363)

The LLM reply text is cleaned (`replace(/```json\s*/gi,"")`,
`replace(/```/g,"")`, `trim()`) and parsed; on failure the greedy regex
`/\x7b[\s\S]*\x7d/` takes the substring from the first opening brace to the
last closing brace and parses *that* — an exception there escapes to the outer
handler (HTTP 500).  Only when the regex finds no match does the code degrade
to `{ checklist: [], notes: text }`.  `JSON.parse` is modelled by a standard
recursive-descent JSON parser over `List Char` (`jparse`); `None` models a
thrown `SyntaxError`.
-/

inductive Json where
  | null
  | bool (b : Bool)
  | num (q : ℚ)
  | str (s : List Char)
  | arr (xs : List Json)
  | obj (fields : List (List Char × Json))

def isWsC (c : Char) : Bool := c = ' ' || c = '\t' || c = '\n' || c = '\r'

def skipWs (cs : List Char) : List Char := cs.dropWhile isWsC

def isDigitC (c : Char) : Bool := '0' ≤ c && c ≤ '9'

def hexVal (c : Char) : Option Nat :=
  if isDigitC c then some (c.toNat - 48)
  else if 'a' ≤ c && c ≤ 'f' then some (c.toNat - 87)
  else if 'A' ≤ c && c ≤ 'F' then some (c.toNat - 55)
  else none

/-- Parse the remainder of a JSON string literal (after the opening quote):
the decoded characters and the input following the closing quote. -/
def parseStrRest : List Char → Option (List Char × List Char)
  | [] => none
  | c :: rest =>
    if c = '"' then some ([], rest)
    else if c = '\\' then
      match rest with
      | [] => none
      | e :: rest2 =>
        if e = '"' || e = '\\' || e = '/' then
          (parseStrRest rest2).map (fun p => (e :: p.1, p.2))
        else if e = 'b' then (parseStrRest rest2).map (fun p => (Char.ofNat 8 :: p.1, p.2))
        else if e = 'f' then (parseStrRest rest2).map (fun p => (Char.ofNat 12 :: p.1, p.2))
        else if e = 'n' then (parseStrRest rest2).map (fun p => ('\n' :: p.1, p.2))
        else if e = 'r' then (parseStrRest rest2).map (fun p => ('\r' :: p.1, p.2))
        else if e = 't' then (parseStrRest rest2).map (fun p => ('\t' :: p.1, p.2))
        else if e = 'u' then
          match rest2 with
          | h1 :: h2 :: h3 :: h4 :: rest3 =>
            match hexVal h1, hexVal h2, hexVal h3, hexVal h4 with
            | some a, some b, some c3, some d =>
              (parseStrRest rest3).map
                (fun p => (Char.ofNat (((a * 16 + b) * 16 + c3) * 16 + d) :: p.1, p.2))
            | _, _, _, _ => none
          | _ => none
        else none
    else if c.toNat < 32 then none
    else (parseStrRest rest).map (fun p => (c :: p.1, p.2))

def digitsVal (l : List Char) : Nat := l.foldl (fun a c => 10 * a + (c.toNat - 48)) 0

/-- Parse a JSON number literal (sign, integer part without leading zeros,
optional fraction, optional exponent) and return its exact rational value. -/
def parseNum (cs : List Char) : Option (ℚ × List Char) :=
  let signed := match cs with
    | '-' :: r => (true, r)
    | _ => (false, cs)
  let neg := signed.1
  let cs1 := signed.2
  let ds := cs1.takeWhile isDigitC
  if ds = [] then none
  else if 1 < ds.length ∧ ds.head? = some '0' then none
  else
    let rest := cs1.drop ds.length
    let intPart : ℚ := (digitsVal ds : ℚ)
    let fracStep : Option (ℚ × List Char) :=
      match rest with
      | '.' :: r =>
        let fs := r.takeWhile isDigitC
        if fs = [] then none
        else some (intPart + (digitsVal fs : ℚ) / ((10 : ℚ) ^ fs.length), r.drop fs.length)
      | _ => some (intPart, rest)
    match fracStep with
    | none => none
    | some (mag, rest2) =>
      let expStep : Option (ℚ × List Char) :=
        match rest2 with
        | 'e' :: r | 'E' :: r =>
          let se := match r with
            | '+' :: r2 => (false, r2)
            | '-' :: r2 => (true, r2)
            | _ => (false, r)
          let es := se.2.takeWhile isDigitC
          if es = [] then none
          else
            let e := digitsVal es
            some (if se.1 then mag / ((10 : ℚ) ^ e) else mag * ((10 : ℚ) ^ e),
              se.2.drop es.length)
        | _ => some (mag, rest2)
      match expStep with
      | none => none
      | some (v, rest3) => some (if neg then -v else v, rest3)

mutual

/-- Fuel-indexed JSON value parser (the fuel only bounds nesting; `jparse`
supplies enough for any input). -/
def parseVal : Nat → List Char → Option (Json × List Char)
  | 0, _ => none
  | fuel + 1, cs =>
    match skipWs cs with
    | 'n' :: 'u' :: 'l' :: 'l' :: r => some (.null, r)
    | 't' :: 'r' :: 'u' :: 'e' :: r => some (.bool true, r)
    | 'f' :: 'a' :: 'l' :: 's' :: 'e' :: r => some (.bool false, r)
    | '"' :: r => (parseStrRest r).map (fun p => (.str p.1, p.2))
    | '[' :: r =>
      (match skipWs r with
       | ']' :: r2 => some (.arr [], r2)
       | r2 => (parseArrRest fuel r2).map (fun p => (.arr p.1, p.2)))
    | '{' :: r =>
      (match skipWs r with
       | '}' :: r2 => some (.obj [], r2)
       | r2 => (parseObjRest fuel r2).map (fun p => (.obj p.1, p.2)))
    | cs2 => (parseNum cs2).map (fun p => (.num p.1, p.2))

/-- Elements of a non-empty array: `value (, value)* ]`. -/
def parseArrRest : Nat → List Char → Option (List Json × List Char)
  | 0, _ => none
  | fuel + 1, cs =>
    match parseVal fuel cs with
    | none => none
    | some (v, r) =>
      match skipWs r with
      | ',' :: r2 => (parseArrRest fuel r2).map (fun p => (v :: p.1, p.2))
      | ']' :: r2 => some ([v], r2)
      | _ => none

/-- Members of a non-empty object: `"key" : value (, "key" : value)* }`. -/
def parseObjRest : Nat → List Char → Option (List (List Char × Json) × List Char)
  | 0, _ => none
  | fuel + 1, cs =>
    match skipWs cs with
    | '"' :: r =>
      (match parseStrRest r with
       | none => none
       | some (key, r2) =>
         match skipWs r2 with
         | ':' :: r3 =>
           (match parseVal fuel r3 with
            | none => none
            | some (v, r4) =>
              match skipWs r4 with
              | ',' :: r5 => (parseObjRest fuel r5).map (fun p => ((key, v) :: p.1, p.2))
              | '}' :: r5 => some ([(key, v)], r5)
              | _ => none)
         | _ => none)
    | _ => none

end

/-- `JSON.parse` on a character list: a single JSON value with only trailing
whitespace allowed; `none` models a thrown `SyntaxError`. -/
def jparse (cs : List Char) : Option Json :=
  match parseVal (cs.length + 1) cs with
  | some (v, r) => if skipWs r = [] then some v else none
  | none => none

/-- Object member access with JSON.parse duplicate-key semantics (the last
assignment wins); non-objects have no members. -/
def getField (j : Json) (k : List Char) : Option Json :=
  match j with
  | .obj fs => (fs.filter (fun p => p.1 = k)).getLast?.map Prod.snd
  | _ => none

/-- `Array.isArray(parsed.checklist) ? parsed.checklist : []`. -/
def shapeChecklist (j : Json) : List Json :=
  match getField j ('c' :: 'h' :: 'e' :: 'c' :: 'k' :: 'l' :: 'i' :: 's' :: 't' :: []) with
  | some (.arr xs) => xs
  | _ => []

/-- `typeof parsed.notes === "string" ? parsed.notes : ""`. -/
def shapeNotes (j : Json) : List Char :=
  match getField j ('n' :: 'o' :: 't' :: 'e' :: 's' :: []) with
  | some (.str s) => s
  | _ => []

/-- Global, case-insensitive removal of a triple-backtick followed by `json`
and a run of whitespace (`replace(/```json\s*/gi, "")`); scanning is
left-to-right and non-overlapping, advancing one character on a non-match. -/
def stripJsonFenceAux : Nat → List Char → List Char
  | 0, cs => cs
  | fuel + 1, cs =>
    match cs with
    | '`' :: '`' :: '`' :: a :: b :: c :: d :: rest =>
      if a.toLower = 'j' && b.toLower = 's' && c.toLower = 'o' && d.toLower = 'n' then
        stripJsonFenceAux fuel (rest.dropWhile isWsC)
      else '`' :: stripJsonFenceAux fuel ('`' :: '`' :: a :: b :: c :: d :: rest)
    | c :: rest => c :: stripJsonFenceAux fuel rest
    | [] => []

def stripJsonFence (cs : List Char) : List Char := stripJsonFenceAux cs.length cs

/-- Global removal of bare triple-backticks (`replace(/```/g, "")`). -/
def stripTicksAux : Nat → List Char → List Char
  | 0, cs => cs
  | fuel + 1, cs =>
    match cs with
    | '`' :: '`' :: '`' :: rest => stripTicksAux fuel rest
    | c :: rest => c :: stripTicksAux fuel rest
    | [] => []

def stripTicks (cs : List Char) : List Char := stripTicksAux cs.length cs

/-- `.trim()`. -/
def trimC (cs : List Char) : List Char :=
  ((cs.dropWhile isWsC).reverse.dropWhile isWsC).reverse

/-- The cleaned text the route parses. -/
def cleanText (cs : List Char) : List Char := trimC (stripTicks (stripJsonFence cs))

/-- The greedy regex `/\x7b[\s\S]*\x7d/`: everything from the first opening
brace to the last closing brace, when the latter does not precede the former. -/
def extractBraces (cs : List Char) : Option (List Char) :=
  let pre := cs.takeWhile (fun c => c ≠ '{')
  let rest := cs.drop pre.length
  match rest with
  | [] => none
  | _ =>
    let revPost := rest.reverse.takeWhile (fun c => c ≠ '}')
    let core := (rest.reverse.drop revPost.length).reverse
    if core = [] then none else some core

/-- The clean/parse step of `/pack`: `some (checklist, notes)` is the data the
route replies with, `none` the exception that escapes to the 500 handler. -/
def packParse (raw : List Char) : Option (List Json × List Char) :=
  let text := cleanText raw
  match jparse text with
  | some p => some (shapeChecklist p, shapeNotes p)
  | none =>
    match extractBraces text with
    | some sub => (jparse sub).map (fun p => (shapeChecklist p, shapeNotes p))
    | none => some ([], text)

/-!
## Auxiliary definitions used by the theorem statements
-/

/-- The temperatures the spec calls usable: the non-null (and non-NaN)
`temp_avg_c` entries of a day list. -/
def realTemps {δ : Type} (days : List (DaySum δ)) : List ℚ :=
  days.filterMap (fun d =>
    match d.temp_avg_c with
    | some (.num q) => some q
    | _ => none)

/-- The packing band of a mean temperature, as the spec words it. -/
def bandOf (μ : ℚ) : String :=
  if μ < 8 then "Cold" else if μ ≤ 24 then "Mild" else "Hot"

/-- Every contiguous substring of a character list (with duplicates). -/
def allSubstrings (l : List Char) : List (List Char) :=
  (List.range (l.length + 1)).flatMap
    (fun i => (List.range (l.length + 1)).map (fun j => (l.drop i).take j))

/-- A components mapping holding only `pm2_5 = 12.0`. -/
def compsPM12 : CompMap := fun k =>
  match k with
  | .pm2_5 => some 12
  | _ => none

/-- A components mapping holding only `pm2_5 = 12.1`. -/
def compsPM121 : CompMap := fun k =>
  match k with
  | .pm2_5 => some (121/10)
  | _ => none

/-- A components mapping holding only `pm2_5 = 12.04`. -/
def compsPM1204 : CompMap := fun k =>
  match k with
  | .pm2_5 => some (1204/100)
  | _ => none

/-!
## General lemmas
-/

theorem round1_zero : round1 0 = 0 := by decide

theorem jsum_num_acc (a : ℚ) (l : List ℚ) :
    (l.map JNum.num).foldl jadd (.num a) = .num (a + l.sum) := by
  induction l generalizing a with
  | nil => simp
  | cons x xs ih => simp [jadd, ih, add_assoc]

theorem jsum_map_num (l : List ℚ) : jsum (l.map JNum.num) = .num l.sum := by
  simpa using jsum_num_acc 0 l

theorem jsumOpt_acc (l : List (Option ℚ)) :
    ∀ a : ℚ, (∀ t ∈ l, t.isSome) →
      l.foldl (fun a t => match t with | some q => jadd a (.num q) | none => .nan)
        (.num a) = .num (a + (l.filterMap id).sum) := by
  induction l with
  | nil => simp
  | cons x xs ih =>
    intro a h
    match x, h x (by simp) with
    | some q, _ =>
      simp only [List.foldl_cons, List.filterMap_cons]
      have := ih (a + q) (fun t ht => h t (by simp [ht]))
      simpa [jadd, add_assoc] using this

theorem jsumOpt_all_some (l : List (Option ℚ)) (h : ∀ t ∈ l, t.isSome) :
    jsumOpt l = .num ((l.filterMap id).sum) := by
  simpa using jsumOpt_acc l 0 h

theorem jsumOpt_foldl_nan (l : List (Option ℚ)) :
    l.foldl (fun a t => match t with | some q => jadd a (.num q) | none => .nan)
      .nan = .nan := by
  induction l with
  | nil => rfl
  | cons x xs ih => cases x <;> simpa [jadd] using ih

theorem jsumOpt_none_acc (l : List (Option ℚ)) :
    ∀ a : ℚ, none ∈ l →
      l.foldl (fun a t => match t with | some q => jadd a (.num q) | none => .nan)
        (.num a) = .nan := by
  induction l with
  | nil => simp
  | cons x xs ih =>
    intro a h
    rcases List.mem_cons.mp h with hx | hx
    · subst hx
      simpa using jsumOpt_foldl_nan xs
    · cases x with
      | none => simpa using jsumOpt_foldl_nan xs
      | some q => simpa [jadd] using ih (a + q) hx

theorem jsumOpt_has_none (l : List (Option ℚ)) (h : none ∈ l) :
    jsumOpt l = .nan := by
  simpa [jsumOpt] using jsumOpt_none_acc l 0 h

theorem jaddOpt2_none_left (x : Option ℚ) : jaddOpt2 none x = .nan := by
  cases x <;> rfl

theorem jaddOpt2_none_right (x : Option ℚ) : jaddOpt2 x none = .nan := by
  cases x <;> rfl

theorem tempAvgOf_nan (raw : RawDay)
    (h1 : raw.temperature.bind RawTemp.day = none)
    (h2 : raw.temperature.bind RawTemp.average = none)
    (h3 : raw.temperature.bind RawTemp.min = none ∨
      raw.temperature.bind RawTemp.max = none) :
    tempAvgOf raw = .nan := by
  unfold tempAvgOf
  cases htemp : raw.temperature with
  | none => simp [jaddOpt2]
  | some t =>
    rw [htemp] at h1 h2 h3
    simp only [Option.some_bind] at h1 h2 h3
    dsimp only
    rw [h1, h2]
    rcases h3 with h | h
    · rw [h, jaddOpt2_none_left]
    · rw [h, jaddOpt2_none_right]

theorem windMaxOf_zero (raw : RawDay)
    (hw1 : (raw.wind.bind RawWind.max).bind RawWindMax.speed = none)
    (hw2 : raw.wind.bind RawWind.max_speed = none)
    (hw3 : raw.wind_speed_max = none)
    (hw4 : raw.wind_speed = none) :
    windMaxOf raw = 0 := by
  unfold windMaxOf
  rw [hw1, hw2, hw3, hw4]
  rfl

theorem rainOf_zero (raw : RawDay)
    (hr1 : raw.precipitation.bind RawPrecip.total = none)
    (hr2 : raw.rain = .absent) :
    rainOf raw = .num 0 := by
  unfold rainOf
  rw [hr1, hr2]

/-- Claim C1: for an upstream day-summary record in which no temperature
candidate path is present (`temperature.day`, `temperature.average`, or the
`temperature.min`/`temperature.max` midpoint, the latter requiring both
bounds), and in which every wind and rain candidate path is absent,
normalisation produces the JS value NaN for `temp_avg_c` — which `res.json`
serialises as the JSON `null` the claim describes — together with
`wind_max_ms = 0` and `rain_mm = 0`. -/
theorem C1_absent_field_defaults (ds : String) (raw : RawDay)
    (h1 : raw.temperature.bind RawTemp.day = none)
    (h2 : raw.temperature.bind RawTemp.average = none)
    (h3 : raw.temperature.bind RawTemp.min = none ∨
      raw.temperature.bind RawTemp.max = none)
    (hw1 : (raw.wind.bind RawWind.max).bind RawWindMax.speed = none)
    (hw2 : raw.wind.bind RawWind.max_speed = none)
    (hw3 : raw.wind_speed_max = none)
    (hw4 : raw.wind_speed = none)
    (hr1 : raw.precipitation.bind RawPrecip.total = none)
    (hr2 : raw.rain = .absent) :
    normalizeDaySummary ds raw = ⟨ds, some .nan, .num 0, .num 0⟩ ∧
      jsonNumField (normalizeDaySummary ds raw).temp_avg_c = none := by
  have ht := tempAvgOf_nan raw h1 h2 h3
  have hw := windMaxOf_zero raw hw1 hw2 hw3 hw4
  have hr := rainOf_zero raw hr1 hr2
  constructor
  · unfold normalizeDaySummary
    rw [ht, hw, hr]
    simp [jfix1, round1_zero]
  · unfold normalizeDaySummary
    rw [ht]
    rfl

/-- Witness for C1 at the fully-absent payload. -/
theorem C1_witness :
    (emptyRaw.temperature.bind RawTemp.day = none ∧ emptyRaw.rain = .absent) ∧
      normalizeDaySummary "2024-01-01" emptyRaw =
        ⟨"2024-01-01", some .nan, .num 0, .num 0⟩ ∧
      jsonNumField (normalizeDaySummary "2024-01-01" emptyRaw).temp_avg_c = none :=
  ⟨⟨rfl, rfl⟩,
    C1_absent_field_defaults "2024-01-01" emptyRaw rfl rfl (Or.inl rfl) rfl rfl rfl
      rfl rfl rfl⟩

theorem normalize_emptyRaw (s : String) :
    normalizeDaySummary s emptyRaw = ⟨s, some .nan, .num 0, .num 0⟩ := rfl

/-- Claim C7 (amended): re-normalising a `DaySummary` does not reproduce it; the
normaliser probes upstream field names (`temperature.*`, `wind*`,
`precipitation.total`, `rain`) that a normalised record does not carry, so a
second application always collapses to `temp_avg_c = NaN` (serialised `null`),
`wind_max_ms = 0`, `rain_mm = 0`.  Normalisation is therefore stable only from
the second application onwards, and a fixed point exactly when the record
already holds those default values. -/
theorem C7_renormalize_collapses (d : DaySum String) :
    renormalize d = ⟨d.day, some .nan, .num 0, .num 0⟩ ∧
      renormalize (renormalize d) = renormalize d ∧
      (renormalize d = d ↔
        d.temp_avg_c = some .nan ∧ d.wind_max_ms = .num 0 ∧ d.rain_mm = .num 0) := by
  have hre : ∀ e : DaySum String, renormalize e = ⟨e.day, some .nan, .num 0, .num 0⟩ :=
    fun e => normalize_emptyRaw e.day
  refine ⟨hre d, ?_, ?_⟩
  · rw [hre d, hre ⟨d.day, some .nan, .num 0, .num 0⟩]
  · rw [hre d]
    cases d with
    | mk day t w r => simp [DaySum.mk.injEq, eq_comm]

/-- Counterexample for Claim C7 as stated: a day-summary with
`temperature.day = 15`, `wind_speed = 3` and `rain = 2` normalises to
`(15, 3, 2)`, but normalising that output again yields `(NaN, 0, 0)`. -/
theorem C7_counterexample :
    normalizeDaySummary "2024-01-01"
        ⟨some ⟨some 15, none, none, none⟩, none, none, some 3, none, .num 2⟩ =
      ⟨"2024-01-01", some (.num 15), .num 3, .num 2⟩ ∧
    renormalize
        (normalizeDaySummary "2024-01-01"
          ⟨some ⟨some 15, none, none, none⟩, none, none, some 3, none, .num 2⟩) =
      ⟨"2024-01-01", some .nan, .num 0, .num 0⟩ ∧
    renormalize
        (normalizeDaySummary "2024-01-01"
          ⟨some ⟨some 15, none, none, none⟩, none, none, some 3, none, .num 2⟩) ≠
      normalizeDaySummary "2024-01-01"
        ⟨some ⟨some 15, none, none, none⟩, none, none, some 3, none, .num 2⟩ := by
  refine ⟨by decide, by decide, by decide⟩

/-- Claim C9: with `pm2_5 = 12.04` the exceedance test uses the unrounded
concentration (12.04 > 12), but the emitted alert reports the value rounded to
one decimal (12.0), so the displayed value does not strictly exceed the
displayed `good_max`. -/
theorem C9_rounded_value_at_threshold :
    goodThreshold .pm2_5 < (1204/100 : ℚ) ∧
    buildPollutionAlerts (some compsPM1204) =
      [⟨"PM25", 12, 12, 0, 100, riskText .pm2_5⟩] ∧
    ∀ a ∈ buildPollutionAlerts (some compsPM1204), ¬ a.good_max < a.value := by
  refine ⟨by decide, by decide, by decide⟩

/-- Claim C2: in the `/weather3` per-date loop, (i) when no outcome is an
authorization failure the request succeeds with exactly one row per requested
date — fetch errors becoming the `null/0/0` default row and successes the
normalised row — and (ii) an authorization failure (HTTP 401 or 403) anywhere
after an auth-failure-free prefix makes the whole request fail with that
status. -/
theorem C2_per_day_failure_isolation :
    (∀ jobs : List (String × FetchOutcome),
      (∀ p ∈ jobs, isAuthOutcome p.2 = false) →
      weather3Loop jobs = .ok (jobs.map rowOf) ∧
        (jobs.map rowOf).length = jobs.length ∧
        (∀ date st, rowOf (date, .err st) = ⟨date, none, .num 0, .num 0⟩)) ∧
    (∀ (pre post : List (String × FetchOutcome)) (date : String) (s : Nat),
      (s = 401 ∨ s = 403) →
      (∀ p ∈ pre, isAuthOutcome p.2 = false) →
      weather3Loop (pre ++ (date, .err (some s)) :: post) = .error s) := by
  constructor
  · intro jobs h
    refine ⟨?_, by simp, fun date st => rfl⟩
    induction jobs with
    | nil => rfl
    | cons p rest ih =>
      have hrest := ih (fun q hq => h q (List.mem_cons_of_mem p hq))
      match p with
      | (date, .ok raw) =>
        simp [weather3Loop, hrest, rowOf, Except.map]
      | (date, .err st) =>
        have hp := h (date, .err st) (List.mem_cons_self _ _)
        simp only [isAuthOutcome] at hp
        simp [weather3Loop, hp, hrest, rowOf, Except.map]
  · intro pre post date s hs hpre
    induction pre with
    | nil =>
      have : isAuthStatus (some s) = true := by
        rcases hs with h | h <;> subst h <;> rfl
      simp [weather3Loop, this]
    | cons p rest ih =>
      have hrest := ih (fun q hq => hpre q (List.mem_cons_of_mem p hq))
      have hp := hpre p (List.mem_cons_self _ _)
      match p with
      | (d2, .ok raw) => simp [weather3Loop, hrest, Except.map]
      | (d2, .err st) =>
        simp only [isAuthOutcome] at hp
        simp [weather3Loop, hp, hrest, Except.map]

/-- Witness for C2: three dates where the middle fetch fails generically, and
the same three dates where the middle fetch fails with HTTP 401. -/
theorem C2_witness :
    ((∀ p ∈ [("d1", FetchOutcome.ok emptyRaw), ("d2", FetchOutcome.err none),
        ("d3", FetchOutcome.ok emptyRaw)], isAuthOutcome p.2 = false) ∧
      weather3Loop [("d1", FetchOutcome.ok emptyRaw), ("d2", FetchOutcome.err none),
          ("d3", FetchOutcome.ok emptyRaw)] =
        .ok [⟨"d1", some .nan, .num 0, .num 0⟩, ⟨"d2", none, .num 0, .num 0⟩,
          ⟨"d3", some .nan, .num 0, .num 0⟩]) ∧
      weather3Loop [("d1", FetchOutcome.ok emptyRaw), ("d2", FetchOutcome.err (some 401)),
          ("d3", FetchOutcome.ok emptyRaw)] = .error 401 := by
  refine ⟨⟨?_, ?_⟩, ?_⟩
  · intro p hp
    simp only [List.mem_cons, List.mem_singleton] at hp
    rcases hp with h | h | h | h <;> first | (subst h; rfl) | simp at h
  · have h := (C2_per_day_failure_isolation.1
      [("d1", FetchOutcome.ok emptyRaw), ("d2", FetchOutcome.err none),
        ("d3", FetchOutcome.ok emptyRaw)]
      (by intro p hp
          simp only [List.mem_cons, List.mem_singleton] at hp
          rcases hp with h | h | h | h <;> first | (subst h; rfl) | simp at h)).1
    rw [h]
    rfl
  · exact C2_per_day_failure_isolation.2 [("d1", FetchOutcome.ok emptyRaw)]
      [("d3", FetchOutcome.ok emptyRaw)] "d2" 401 (Or.inl rfl)
      (by intro p hp
          simp only [List.mem_singleton] at hp
          subst hp
          rfl)

theorem pollutantName_inj (k1 k2 : PKey) (h : pollutantName k1 = pollutantName k2) :
    k1 = k2 := by
  cases k1 <;> cases k2 <;> first | rfl | (exfalso; revert h; decide)

theorem mem_goodKeys (k : PKey) : k ∈ goodKeys := by
  cases k <;> decide

theorem filterMap_alert_sublist (f : PKey → Option PollutantAlert)
    (hf : ∀ k a, f k = some a → a.pollutant = pollutantName k) :
    ∀ l : List PKey,
      ((l.filterMap f).map PollutantAlert.pollutant).Sublist (l.map pollutantName) := by
  intro l
  induction l with
  | nil => simp
  | cons x xs ih =>
    cases hfx : f x with
    | none =>
      simp only [List.filterMap_cons, hfx, List.map_cons]
      exact ih.cons _
    | some a =>
      simp only [List.filterMap_cons, hfx, List.map_cons]
      rw [hf x a hfx]
      exact ih.cons₂ _

/-- Claim C3: `buildPollutionAlerts` emits an alert for a pollutant exactly
when its concentration is present and strictly above the fixed Good threshold;
each alert carries the (1-decimal-rounded) value, the threshold, the elevation
and the percentage `round(value/threshold*100)` together with the canonical
`PM25`-style name; alert order follows the threshold-table order; and
concretely `pm2_5 = 12.0` emits nothing while `pm2_5 = 12.1` emits one alert
with elevation `0.1` and percentage `101`. -/
theorem C3_alert_emission :
    (∀ (c : CompMap) (k : PKey),
      (∃ a ∈ buildPollutionAlerts (some c), a.pollutant = pollutantName k) ↔
        ∃ v, c k = some v ∧ goodThreshold k < v) ∧
    (∀ (c : CompMap), ∀ a ∈ buildPollutionAlerts (some c),
      ∃ k v, c k = some v ∧ goodThreshold k < v ∧
        a = ⟨pollutantName k, round1 v, goodThreshold k, round1 (v - goodThreshold k),
          jsRoundZ (v / goodThreshold k * 100), riskText k⟩) ∧
    (∀ c : CompMap,
      ((buildPollutionAlerts (some c)).map PollutantAlert.pollutant).Sublist
        (goodKeys.map pollutantName)) ∧
    buildPollutionAlerts (some compsPM12) = [] ∧
    buildPollutionAlerts (some compsPM121) =
      [⟨"PM25", 121/10, 12, 1/10, 101, riskText .pm2_5⟩] := by
  have hform : ∀ (c : CompMap) (k : PKey) (a : PollutantAlert),
      (match c k with
       | some v =>
         if goodThreshold k < v then
           some (⟨pollutantName k, round1 v, goodThreshold k,
             round1 (v - goodThreshold k), jsRoundZ (v / goodThreshold k * 100),
             riskText k⟩ : PollutantAlert)
         else none
       | none => none) = some a →
      ∃ v, c k = some v ∧ goodThreshold k < v ∧
        a = ⟨pollutantName k, round1 v, goodThreshold k, round1 (v - goodThreshold k),
          jsRoundZ (v / goodThreshold k * 100), riskText k⟩ := by
    intro c k a h
    cases hc : c k with
    | none => rw [hc] at h; exact absurd h (by simp)
    | some v =>
      rw [hc] at h
      dsimp only at h
      by_cases hv : goodThreshold k < v
      · rw [if_pos hv] at h
        exact ⟨v, rfl, hv, (Option.some_injective _ h).symm⟩
      · rw [if_neg hv] at h
        exact absurd h (by simp)
  refine ⟨?_, ?_, ?_, by decide, by decide⟩
  · intro c k
    constructor
    · rintro ⟨a, ha, hname⟩
      rw [buildPollutionAlerts] at ha
      obtain ⟨k', _, hf⟩ := List.mem_filterMap.mp ha
      obtain ⟨v, hc, hv, hav⟩ := hform c k' a hf
      have hk : k' = k := pollutantName_inj k' k (by rw [hav] at hname; exact hname)
      subst hk
      exact ⟨v, hc, hv⟩
    · rintro ⟨v, hc, hv⟩
      refine ⟨⟨pollutantName k, round1 v, goodThreshold k, round1 (v - goodThreshold k),
        jsRoundZ (v / goodThreshold k * 100), riskText k⟩, ?_, rfl⟩
      rw [buildPollutionAlerts]
      exact List.mem_filterMap.mpr ⟨k, mem_goodKeys k, by rw [hc]; simp [hv]⟩
  · intro c a ha
    rw [buildPollutionAlerts] at ha
    obtain ⟨k', _, hf⟩ := List.mem_filterMap.mp ha
    obtain ⟨v, hc, hv, hav⟩ := hform c k' a hf
    exact ⟨k', v, hc, hv, hav⟩
  · intro c
    rw [buildPollutionAlerts]
    refine filterMap_alert_sublist _ ?_ goodKeys
    intro k a h
    obtain ⟨v, _, _, hav⟩ := hform c k a h
    rw [hav]

/-- Witness for C3: on the `pm2_5 = 12.1` mapping the iff yields the `PM25`
alert. -/
theorem C3_witness :
    (compsPM121 .pm2_5 = some (121/10) ∧ goodThreshold .pm2_5 < 121/10) ∧
      ∃ a ∈ buildPollutionAlerts (some compsPM121),
        a.pollutant = pollutantName .pm2_5 :=
  ⟨⟨rfl, by decide⟩,
    (C3_alert_emission.1 compsPM121 .pm2_5).mpr ⟨121/10, rfl, by decide⟩⟩

theorem temps_eq_realTemps {δ : Type} :
    ∀ days : List (DaySum δ), (∀ d ∈ days, d.temp_avg_c ≠ some .nan) →
      days.filterMap (fun d => d.temp_avg_c) = (realTemps days).map .num := by
  intro days
  induction days with
  | nil => intro _; rfl
  | cons d rest ih =>
    intro h
    have hrest := ih (fun x hx => h x (List.mem_cons_of_mem _ hx))
    cases hd : d.temp_avg_c with
    | none =>
      simp only [realTemps, List.filterMap_cons, hd] at hrest ⊢
      exact hrest
    | some j =>
      cases j with
      | num q =>
        simp only [realTemps, List.filterMap_cons, hd, List.map_cons] at hrest ⊢
        rw [hrest]
      | nan => exact absurd hd (h d (List.mem_cons_self _ _))

/-- Claim C4 (amended): on day lists whose `temp_avg_c` fields are numbers or
null (no NaN — the value an all-paths-missing upstream day produces), the
`packingAdvice` of `bk-server.js` returns the rounded arithmetic mean of the
non-null temperatures and the claimed band, with `null`/`Unknown` when no
usable temperature exists; the boundary cases 7.9/8.0/24.0/24.1 land in
Cold/Mild/Mild/Hot.  (The same-named `packingAdvice` of the second server file
does not satisfy this; see the counterexample.) -/
theorem C4_packing_mean_and_bands :
    (∀ days : List (DaySum String), (∀ d ∈ days, d.temp_avg_c ≠ some .nan) →
      (realTemps days = [] →
        (packingAdvice days).mean_temp_c = none ∧
          (packingAdvice days).packing = "Unknown") ∧
      (realTemps days ≠ [] →
        (packingAdvice days).mean_temp_c =
          some (.num (round1 ((realTemps days).sum / (realTemps days).length))) ∧
          (packingAdvice days).packing =
            bandOf ((realTemps days).sum / (realTemps days).length))) ∧
    (packingAdvice [(⟨"", some (.num (79/10)), .num 0, .num 0⟩ : DaySum String)]).packing
        = "Cold" ∧
    (packingAdvice [(⟨"", some (.num 8), .num 0, .num 0⟩ : DaySum String)]).packing
        = "Mild" ∧
    (packingAdvice [(⟨"", some (.num 24), .num 0, .num 0⟩ : DaySum String)]).packing
        = "Mild" ∧
    (packingAdvice [(⟨"", some (.num (241/10)), .num 0, .num 0⟩ : DaySum String)]).packing
        = "Hot" := by
  refine ⟨?_, by decide, by decide, by decide, by decide⟩
  intro days h
  have ht := temps_eq_realTemps days h
  constructor
  · intro hempty
    rw [hempty] at ht
    simp only [List.map_nil] at ht
    simp [packingAdvice, ht]
  · intro hne
    have hlen : (realTemps days).length ≠ 0 := fun hl => hne (List.length_eq_zero.mp hl)
    constructor
    · simp only [packingAdvice, ht, List.length_map]
      rw [if_neg hlen, jsum_map_num, jdivLen, if_neg hlen]
      rfl
    · simp only [packingAdvice, ht, List.length_map]
      rw [if_neg hlen, jsum_map_num, jdivLen, if_neg hlen]
      set μ : ℚ := (realTemps days).sum / (realTemps days).length with hμ
      by_cases h8 : μ < 8
      · simp [jlt, h8, bandOf]
      · by_cases h24 : μ ≤ 24
        · simp [jlt, jle, h8, h24, bandOf]
        · simp [jlt, jle, h8, h24, bandOf]

/-- Witness for C4: one null day and one 10-degree day give mean 10 and the
Mild band. -/
theorem C4_witness :
    (∀ d ∈ [(⟨"x", some (.num 10), .num 0, .num 0⟩ : DaySum String),
        ⟨"y", none, .num 0, .num 0⟩], d.temp_avg_c ≠ some .nan) ∧
    realTemps [(⟨"x", some (.num 10), .num 0, .num 0⟩ : DaySum String),
        ⟨"y", none, .num 0, .num 0⟩] ≠ [] ∧
    (packingAdvice [(⟨"x", some (.num 10), .num 0, .num 0⟩ : DaySum String),
        ⟨"y", none, .num 0, .num 0⟩]).mean_temp_c =
      some (.num (round1
        ((realTemps [(⟨"x", some (.num 10), .num 0, .num 0⟩ : DaySum String),
            ⟨"y", none, .num 0, .num 0⟩]).sum /
          (realTemps [(⟨"x", some (.num 10), .num 0, .num 0⟩ : DaySum String),
            ⟨"y", none, .num 0, .num 0⟩]).length))) :=
  ⟨by decide, by decide,
    ((C4_packing_mean_and_bands.1
      [⟨"x", some (.num 10), .num 0, .num 0⟩, ⟨"y", none, .num 0, .num 0⟩]
      (by decide)).2 (by decide)).1⟩

/-- Counterexample for Claim C4 as stated: the `packingAdvice` of the second
server file coerces a null `temp_avg_c` to 0 while dividing by the full day
count, so a null day plus a 10-degree day yields mean 5 and band Cold instead
of the claimed mean 10 and band Mild. -/
theorem C4_counterexample :
    packingAdviceP1 [(⟨"a", none, .num 0, .num 0⟩ : DaySum String),
        ⟨"b", some (.num 10), .num 0, .num 0⟩] = ⟨false, "Cold", .num 5⟩ ∧
    realTemps [(⟨"a", none, .num 0, .num 0⟩ : DaySum String),
        ⟨"b", some (.num 10), .num 0, .num 0⟩] = [10] ∧
    (packingAdviceP1 [(⟨"a", none, .num 0, .num 0⟩ : DaySum String),
        ⟨"b", some (.num 10), .num 0, .num 0⟩]).mean_temp_c ≠
      .num (round1 (([10] : List ℚ).sum / ([10] : List ℚ).length)) ∧
    (packingAdviceP1 [(⟨"a", none, .num 0, .num 0⟩ : DaySum String),
        ⟨"b", some (.num 10), .num 0, .num 0⟩]).packing ≠ bandOf 10 := by
  refine ⟨by decide, by decide, by decide, by decide⟩

theorem mem_of_mem_sortedKeys {k : Nat} {keys : List Nat} (h : k ∈ sortedKeys keys) :
    k ∈ keys := by
  unfold sortedKeys at h
  have h1 := List.mem_of_mem_take h
  have h2 := (List.perm_insertionSort (· ≤ ·) keys.dedup).mem_iff.mp h1
  exact List.mem_dedup.mp h2

theorem jdivLen_nan (n : Nat) : jdivLen .nan n = .nan := by
  unfold jdivLen
  split <;> rfl

theorem filterMap_length_all_some (B : List Slot)
    (h : ∀ i ∈ B, i.temp.isSome) :
    (B.filterMap Slot.temp).length = B.length := by
  induction B with
  | nil => rfl
  | cons i rest ih =>
    have hrest := ih (fun x hx => h x (List.mem_cons_of_mem _ hx))
    cases hi : i.temp with
    | none =>
      have := h i (List.mem_cons_self _ _)
      rw [hi] at this
      exact absurd this (by simp)
    | some q => simp [List.filterMap_cons, hi, hrest]

theorem sum_map_sub_const (l : List ℚ) (c : ℚ) :
    (l.map (fun k => k - c)).sum = l.sum - l.length * c := by
  induction l with
  | nil => simp
  | cons x xs ih =>
    simp [ih]
    ring

theorem jsMaxD_const_one : ∀ l : List ℚ, l ≠ [] → (∀ x ∈ l, x = 1) → jsMaxD l = 1 := by
  have aux : ∀ xs : List ℚ, (∀ x ∈ xs, x = 1) → xs.foldl max (1 : ℚ) = 1 := by
    intro xs
    induction xs with
    | nil => intro _; rfl
    | cons y ys ih =>
      intro h
      have hy := h y (List.mem_cons_self _ _)
      subst hy
      simp only [List.foldl_cons, max_self]
      exact ih (fun x hx => h x (List.mem_cons_of_mem _ hx))
  intro l hne h
  match l, hne with
  | x :: xs, _ =>
    have hx := h x (List.mem_cons_self _ _)
    subst hx
    exact aux xs (fun y hy => h y (List.mem_cons_of_mem _ hy))

/-- Claim C5 (amended): in `summarizeThreeDays`, a day whose slots all carry a
temperature gets the 1-decimal-rounded mean of the Kelvin-to-Celsius-converted
slot temperatures (`C = K - 273.15`), and a constant 273.15 K day yields
exactly 0.0; but a day with at least one temperature-less slot does not get
the mean of its present temperatures — the `undefined` entry poisons the sum
and the day's `temp_avg_c` becomes NaN, serialised as `null`. -/
theorem C5_bucket_temperature_mean :
    (∀ (list : List Slot) (e : DaySum Nat), e ∈ summarizeThreeDays list →
      ((∀ i ∈ list.filter (fun i => dayKeyOf i.dt = e.day), i.temp.isSome) →
        e.temp_avg_c = some (.num (round1
          ((((list.filter (fun i => dayKeyOf i.dt = e.day)).filterMap Slot.temp).map
              (fun k => k - 27315/100)).sum /
            (list.filter (fun i => dayKeyOf i.dt = e.day)).length)))) ∧
      ((∃ i ∈ list.filter (fun i => dayKeyOf i.dt = e.day), i.temp = none) →
        e.temp_avg_c = some .nan ∧ jsonNumField e.temp_avg_c = none)) ∧
    summarizeThreeDays [⟨0, some (27315/100), some 0, none⟩] =
      [⟨0, some (.num 0), .num 0, .num 0⟩] := by
  refine ⟨?_, by decide⟩
  intro list e he
  obtain ⟨k, hk, rfl⟩ := List.mem_map.mp he
  have hBne : list.filter (fun i => dayKeyOf i.dt = k) ≠ [] := by
    obtain ⟨i, hi, hik⟩ := List.mem_map.mp (mem_of_mem_sortedKeys hk)
    intro hB
    have : i ∈ list.filter (fun i => dayKeyOf i.dt = k) := by
      simp [List.mem_filter, hi, hik]
    rw [hB] at this
    exact absurd this (by simp)
  constructor
  · intro hall
    simp only [slotDaySummary] at hall ⊢
    set B := list.filter (fun i => dayKeyOf i.dt = k) with hBdef
    have hlen : B.length ≠ 0 := fun h => hBne (List.length_eq_zero.mp h)
    have hsum := jsumOpt_all_some (B.map Slot.temp)
      (by intro t ht
          obtain ⟨i, hi, rfl⟩ := List.mem_map.mp ht
          exact hall i hi)
    rw [List.filterMap_map] at hsum
    have hplen := filterMap_length_all_some B hall
    have hfid : (B.filterMap (id ∘ Slot.temp)) = B.filterMap Slot.temp := rfl
    rw [hfid] at hsum
    rw [hsum, jdivLen, if_neg (by simpa [List.length_map] using hlen)]
    have harg : (B.filterMap Slot.temp).sum / (B.map Slot.temp).length - 27315/100 =
        (((B.filterMap Slot.temp).map (fun t => t - 27315/100)).sum / B.length) := by
      rw [sum_map_sub_const, hplen, List.length_map, sub_div]
      congr 1
      rw [mul_comm, mul_div_assoc, div_self (by exact_mod_cast hlen), mul_one]
    simp only [K2C, jsubC, jfix1, List.length_map]
    rw [List.length_map] at harg
    rw [harg]
  · intro ⟨i, hi, hit⟩
    simp only [slotDaySummary] at hi ⊢
    have hmem : (none : Option ℚ) ∈ (list.filter (fun i => dayKeyOf i.dt = k)).map Slot.temp := by
      exact List.mem_map.mpr ⟨i, hi, by rw [hit]⟩
    rw [jsumOpt_has_none _ hmem, jdivLen_nan]
    exact ⟨rfl, rfl⟩

/-- Witness for C5: a single slot at 280 K yields
`round1((280 - 273.15)/1) = 6.9`. -/
theorem C5_witness :
    ((⟨0, some (.num (69/10)), .num 0, .num 0⟩ : DaySum Nat) ∈
      summarizeThreeDays [⟨0, some 280, some 0, none⟩]) ∧
    (∀ i ∈ ([⟨0, some 280, some 0, none⟩] : List Slot).filter
        (fun i => dayKeyOf i.dt = 0), i.temp.isSome) ∧
    (⟨0, some (.num (69/10)), .num 0, .num 0⟩ : DaySum Nat).temp_avg_c =
      some (.num (round1
        (((([⟨0, some 280, some 0, none⟩] : List Slot).filter
            (fun i => dayKeyOf i.dt = 0)).filterMap Slot.temp).map
            (fun k => k - 27315/100)).sum /
          (([⟨0, some 280, some 0, none⟩] : List Slot).filter
            (fun i => dayKeyOf i.dt = 0)).length)) :=
  ⟨by decide, by decide,
    (C5_bucket_temperature_mean.1 [⟨0, some 280, some 0, none⟩]
      ⟨0, some (.num (69/10)), .num 0, .num 0⟩ (by decide)).1 (by decide)⟩

/-- Counterexample for Claim C5 as stated: a day with one 280 K slot and one
temperature-less slot reports `temp_avg_c = NaN` (serialised `null`) instead
of the mean of the present temperatures (6.9). -/
theorem C5_counterexample :
    summarizeThreeDays [⟨0, some 280, some 0, none⟩, ⟨3600, none, some 0, none⟩] =
      [⟨0, some .nan, .num 0, .num 0⟩] ∧
    round1 ((280 : ℚ) - 27315/100) = 69/10 ∧
    (some (JNum.nan) : Option JNum) ≠ some (.num (69/10)) ∧
    jsonNumField (some .nan) = none := by
  refine ⟨by decide, by decide, by decide, rfl⟩

/-- Claim C10: in `summarizeAirForecast`, an hourly sample without `main.aqi`
contributes the default `?? 1` to its day's maximum, so a day all of whose
samples lack an AQI is still reported, with `aqi_max = 1`. -/
theorem C10_default_aqi_one (list : List AirItem) (e : AirDay)
    (he : e ∈ summarizeAirForecast list)
    (h : ∀ i ∈ list, dayKeyOf i.dt = e.day → i.aqi = none) :
    e.aqi_max = 1 := by
  obtain ⟨k, hk, rfl⟩ := List.mem_map.mp he
  simp only [airDaySummary] at h ⊢
  have hBne : list.filter (fun i => dayKeyOf i.dt = k) ≠ [] := by
    obtain ⟨i, hi, hik⟩ := List.mem_map.mp (mem_of_mem_sortedKeys hk)
    intro hB
    have : i ∈ list.filter (fun i => dayKeyOf i.dt = k) := by
      simp [List.mem_filter, hi, hik]
    rw [hB] at this
    exact absurd this (by simp)
  apply jsMaxD_const_one
  · intro hmap
    exact hBne (List.map_eq_nil_iff.mp hmap)
  · intro x hx
    obtain ⟨i, hi, rfl⟩ := List.mem_map.mp hx
    obtain ⟨hil, hik⟩ := List.mem_filter.mp hi
    rw [h i hil (by simpa using hik)]
    rfl

/-- Witness for C10: a single AQI-less sample gives the day `aqi_max = 1`. -/
theorem C10_witness :
    ((⟨0, 1, []⟩ : AirDay) ∈ summarizeAirForecast [⟨100, none, none⟩]) ∧
      (∀ i ∈ ([⟨100, none, none⟩] : List AirItem), dayKeyOf i.dt = 0 → i.aqi = none) ∧
      (⟨0, 1, []⟩ : AirDay).aqi_max = 1 := by
  have hmem : (⟨0, 1, []⟩ : AirDay) ∈ summarizeAirForecast [⟨100, none, none⟩] := by
    simp [summarizeAirForecast, sortedKeys, dayKeyOf, airDaySummary, jsMaxD,
      List.insertionSort, maxComp, goodKeys]
  refine ⟨hmem, ?_, C10_default_aqi_one [⟨100, none, none⟩] ⟨0, 1, []⟩ hmem ?_⟩
  · intro i hi _
    rcases List.mem_singleton.mp hi with rfl
    rfl
  · intro i hi _
    rcases List.mem_singleton.mp hi with rfl
    rfl

/-!
## Lemmas about decimal rendering and the calendar
-/

theorem digitsAux_fuel_irrel : ∀ n : Nat, ∀ f : Nat, n < f → digitsAux f n = natDigits n := by
  intro n
  induction n using Nat.strong_induction_on with
  | _ n ih =>
    intro f hf
    match f, hf with
    | f' + 1, _ =>
      by_cases h10 : n < 10
      · simp [digitsAux, natDigits, h10]
      · have hpos : 0 < n := by omega
        have hdiv : n / 10 < n := Nat.div_lt_self hpos (by omega)
        have h1 : n / 10 < f' := by omega
        have h2 : n / 10 < n + 1 - 1 + 1 := by omega
        simp only [digitsAux, natDigits, if_neg h10]
        rw [ih (n / 10) hdiv f' h1, ih (n / 10) hdiv n (by omega)]

theorem natDigits_unfold (n : Nat) :
    natDigits n = if n < 10 then [n] else natDigits (n / 10) ++ [n % 10] := by
  by_cases h10 : n < 10
  · simp [natDigits, digitsAux, h10]
  · have hpos : 0 < n := by omega
    have hdiv : n / 10 < n := Nat.div_lt_self hpos (by omega)
    rw [if_neg h10]
    show digitsAux (n + 1) n = _
    simp only [digitsAux, if_neg h10]
    rw [digitsAux_fuel_irrel (n / 10) n (by omega)]

def digitsValN (l : List Nat) : Nat := l.foldl (fun a d => 10 * a + d) 0

theorem digitsValN_append_single (l : List Nat) (d : Nat) :
    digitsValN (l ++ [d]) = 10 * digitsValN l + d := by
  simp [digitsValN, List.foldl_append]

theorem digitsValN_natDigits : ∀ n : Nat, digitsValN (natDigits n) = n := by
  intro n
  induction n using Nat.strong_induction_on with
  | _ n ih =>
    rw [natDigits_unfold]
    by_cases h10 : n < 10
    · simp [h10, digitsValN]
    · have hpos : 0 < n := by omega
      have hdiv : n / 10 < n := Nat.div_lt_self hpos (by omega)
      rw [if_neg h10, digitsValN_append_single, ih (n / 10) hdiv]
      omega

theorem natDigits_injective : Function.Injective natDigits := by
  intro a b h
  have := congrArg digitsValN h
  rwa [digitsValN_natDigits, digitsValN_natDigits] at this

theorem natDigits_ne_nil (n : Nat) : natDigits n ≠ [] := by
  rw [natDigits_unfold]
  by_cases h10 : n < 10
  · simp [h10]
  · simp [h10]

theorem natDigits_lt_ten : ∀ n : Nat, ∀ d ∈ natDigits n, d < 10 := by
  intro n
  induction n using Nat.strong_induction_on with
  | _ n ih =>
    intro d hd
    rw [natDigits_unfold] at hd
    by_cases h10 : n < 10
    · rw [if_pos h10] at hd
      simp at hd
      omega
    · have hpos : 0 < n := by omega
      have hdiv : n / 10 < n := Nat.div_lt_self hpos (by omega)
      rw [if_neg h10] at hd
      rcases List.mem_append.mp hd with h | h
      · exact ih (n / 10) hdiv d h
      · simp at h
        omega

theorem natDigits_head_ne_zero : ∀ n : Nat, 1 ≤ n →
    ∃ d l, natDigits n = d :: l ∧ d ≠ 0 ∧ d < 10 := by
  intro n
  induction n using Nat.strong_induction_on with
  | _ n ih =>
    intro hn
    rw [natDigits_unfold]
    by_cases h10 : n < 10
    · exact ⟨n, [], by simp [h10], by omega, h10⟩
    · have hpos : 0 < n := by omega
      have hdiv : n / 10 < n := Nat.div_lt_self hpos (by omega)
      have hq : 1 ≤ n / 10 := by
        have := Nat.div_le_div_right (c := 10) (by omega : 10 ≤ n)
        simpa using this
      obtain ⟨d, l, hdl, hd0, hdlt⟩ := ih (n / 10) hdiv hq
      exact ⟨d, l ++ [n % 10], by simp [h10, hdl], hd0, hdlt⟩

theorem digitChar_inj_lt_ten :
    ∀ a < 10, ∀ b < 10, Nat.digitChar a = Nat.digitChar b → a = b := by decide

theorem digitChar_ne_dash : ∀ a < 10, Nat.digitChar a ≠ '-' := by decide

theorem digitChar_ne_zero : ∀ a < 10, a ≠ 0 → Nat.digitChar a ≠ '0' := by decide

theorem map_digitChar_inj :
    ∀ l1 l2 : List Nat, (∀ x ∈ l1, x < 10) → (∀ x ∈ l2, x < 10) →
      l1.map Nat.digitChar = l2.map Nat.digitChar → l1 = l2 := by
  intro l1
  induction l1 with
  | nil =>
    intro l2 _ _ h
    cases l2 with
    | nil => rfl
    | cons y t => simp at h
  | cons x xs ih =>
    intro l2 h1 h2 h
    cases l2 with
    | nil => simp at h
    | cons y t =>
      simp only [List.map_cons, List.cons.injEq] at h
      have hx := digitChar_inj_lt_ten x (h1 x (List.mem_cons_self _ _)) y
        (h2 y (List.mem_cons_self _ _)) h.1
      subst hx
      rw [ih t (fun z hz => h1 z (List.mem_cons_of_mem _ hz))
        (fun z hz => h2 z (List.mem_cons_of_mem _ hz)) h.2]

theorem natChars_inj : Function.Injective natChars := by
  intro a b h
  exact natDigits_injective
    (map_digitChar_inj _ _ (natDigits_lt_ten a) (natDigits_lt_ten b) h)

theorem natChars_no_dash (n : Nat) : ∀ c ∈ natChars n, c ≠ '-' := by
  intro c hc
  obtain ⟨d, hd, rfl⟩ := List.mem_map.mp hc
  exact digitChar_ne_dash d (natDigits_lt_ten n d hd)

theorem natChars_head_ne_zero (n : Nat) (hn : 10 ≤ n) :
    ∃ c cs, natChars n = c :: cs ∧ c ≠ '0' := by
  obtain ⟨d, l, hdl, hd0, hdlt⟩ := natDigits_head_ne_zero n (by omega)
  exact ⟨Nat.digitChar d, l.map Nat.digitChar, by simp [natChars, hdl],
    digitChar_ne_zero d hdlt hd0⟩

theorem pad2L_inj : Function.Injective pad2L := by
  intro a b h
  unfold pad2L at h
  by_cases ha : a < 10 <;> by_cases hb : b < 10
  · rw [if_pos ha, if_pos hb] at h
    exact natChars_inj (List.cons_injective h)
  · rw [if_pos ha, if_neg hb] at h
    obtain ⟨c, cs, hcs, hc0⟩ := natChars_head_ne_zero b (by omega)
    rw [hcs] at h
    exact absurd (List.head_eq_of_cons_eq h).symm hc0
  · rw [if_neg ha, if_pos hb] at h
    obtain ⟨c, cs, hcs, hc0⟩ := natChars_head_ne_zero a (by omega)
    rw [hcs] at h
    exact absurd (List.head_eq_of_cons_eq h) hc0
  · rw [if_neg ha, if_neg hb] at h
    exact natChars_inj h

theorem pad2L_no_dash (n : Nat) : ∀ c ∈ pad2L n, c ≠ '-' := by
  intro c hc
  unfold pad2L at hc
  by_cases hn : n < 10
  · rw [if_pos hn] at hc
    rcases List.mem_cons.mp hc with rfl | hc
    · decide
    · exact natChars_no_dash n c hc
  · rw [if_neg hn] at hc
    exact natChars_no_dash n c hc

theorem split_at_dash :
    ∀ l1 r1 l2 r2 : List Char, (∀ c ∈ l1, c ≠ '-') → (∀ c ∈ l2, c ≠ '-') →
      l1 ++ '-' :: r1 = l2 ++ '-' :: r2 → l1 = l2 ∧ r1 = r2 := by
  intro l1
  induction l1 with
  | nil =>
    intro r1 l2 r2 _ h2 h
    cases l2 with
    | nil => simpa using h
    | cons y t =>
      simp only [List.nil_append, List.cons_append, List.cons.injEq] at h
      exact absurd h.1.symm (h2 y (List.mem_cons_self _ _))
  | cons x xs ih =>
    intro r1 l2 r2 h1 h2 h
    cases l2 with
    | nil =>
      simp only [List.nil_append, List.cons_append, List.cons.injEq] at h
      exact absurd h.1 (h1 x (List.mem_cons_self _ _))
    | cons y t =>
      simp only [List.cons_append, List.cons.injEq] at h
      obtain ⟨hxy, hrest⟩ := h
      subst hxy
      obtain ⟨hl, hr⟩ := ih r1 t r2 (fun c hc => h1 c (List.mem_cons_of_mem _ hc))
        (fun c hc => h2 c (List.mem_cons_of_mem _ hc)) hrest
      exact ⟨by rw [hl], hr⟩

theorem fmtDateL_inj : Function.Injective fmtDateL := by
  intro a b h
  unfold fmtDateL at h
  obtain ⟨hy, hrest⟩ := split_at_dash _ _ _ _ (natChars_no_dash a.y)
    (natChars_no_dash b.y) h
  obtain ⟨hm, hd⟩ := split_at_dash _ _ _ _ (pad2L_no_dash a.m)
    (pad2L_no_dash b.m) hrest
  obtain ⟨ay, am, ad⟩ := a
  obtain ⟨by_, bm, bd⟩ := b
  simp only at hy hm hd
  rw [natChars_inj hy, pad2L_inj hm, pad2L_inj hd]

theorem fmtDate_inj : Function.Injective fmtDate := by
  intro a b h
  exact fmtDateL_inj (congrArg String.data h)

theorem dateLt_next (c : CivilDate) : dateLt c (nextDay c) := by
  unfold nextDay
  split_ifs <;> (unfold dateLt; dsimp only; omega)

theorem dateLt_trans {a b c : CivilDate} (h1 : dateLt a b) (h2 : dateLt b c) :
    dateLt a c := by
  unfold dateLt at *
  omega

theorem dateLt_ne {a b : CivilDate} (h : dateLt a b) : a ≠ b := by
  intro heq
  subst heq
  unfold dateLt at h
  omega

theorem addDays_strict_mono (s : CivilDate) :
    ∀ i j : Nat, i < j → dateLt (addDays s i) (addDays s j) := by
  intro i j
  induction j with
  | zero => omega
  | succ j ih =>
    intro hij
    rcases (by omega : i = j ∨ i < j) with rfl | h
    · exact dateLt_next _
    · exact dateLt_trans (ih h) (dateLt_next _)

theorem dateSeq_pairwise (s : CivilDate) (n : Nat) :
    (dateSeq s n).Pairwise dateLt := by
  unfold dateSeq
  rw [List.pairwise_map]
  exact (List.pairwise_lt_range n).imp (fun h => addDays_strict_mono s _ _ h)

/-- Claim C6 (amended): `nextNDatesUTC` yields, for any request date and any
day count `n`, exactly `n` rendered `YYYY-MM-DD` strings that are pairwise
distinct, denote strictly increasing (chronologically ordered) calendar days,
and begin with the request's current UTC date; the slot-bucketing summariser,
by contrast, yields `min 3 (number of distinct UTC days in the upstream
data)` entries, which can be fewer than the requested count (see the
counterexample). -/
theorem C6_dates_distinct_ordered :
    (∀ (start : CivilDate) (n : Nat), (nextNDatesUTC start n).length = n) ∧
    (∀ (start : CivilDate) (n : Nat), (dateSeq start n).Pairwise dateLt) ∧
    (∀ (start : CivilDate) (n : Nat), (nextNDatesUTC start n).Nodup) ∧
    (∀ (start : CivilDate) (n : Nat),
      (nextNDatesUTC start (n + 1)).head? = some (fmtDate start)) ∧
    (∀ list : List Slot, (summarizeThreeDays list).length =
      min 3 (list.map (fun i => dayKeyOf i.dt)).dedup.length) := by
  refine ⟨?_, dateSeq_pairwise, ?_, ?_, ?_⟩
  · intro start n
    simp [nextNDatesUTC, dateSeq]
  · intro start n
    exact List.Nodup.map fmtDate_inj
      ((dateSeq_pairwise start n).imp (fun h => dateLt_ne h))
  · intro start n
    unfold nextNDatesUTC dateSeq
    rw [List.range_succ_eq_map]
    simp [addDays]
  · intro list
    unfold summarizeThreeDays sortedKeys
    rw [List.length_map, List.length_take,
      (List.perm_insertionSort (· ≤ ·) (list.map (fun i => dayKeyOf i.dt)).dedup).length_eq]

/-- Counterexample for Claim C6 as stated: with a single upstream slot the
slot-bucketing multi-day aggregation returns one day entry, not the requested
three. -/
theorem C6_counterexample :
    (summarizeThreeDays [⟨0, some 280, some 1, none⟩]).length = 1 ∧ (1 : Nat) ≠ 3 := by
  refine ⟨by decide, by decide⟩

theorem takeWhile_append_cons (p : Char → Bool) :
    ∀ (l1 : List Char) (x : Char) (l2 : List Char), (∀ c ∈ l1, p c = true) →
      p x = false → (l1 ++ x :: l2).takeWhile p = l1 := by
  intro l1
  induction l1 with
  | nil =>
    intro x l2 _ hx
    simp [List.takeWhile_cons, hx]
  | cons y t ih =>
    intro x l2 h1 hx
    have hy := h1 y (List.mem_cons_self _ _)
    simp [List.cons_append, List.takeWhile_cons, hy,
      ih x l2 (fun c hc => h1 c (List.mem_cons_of_mem _ hc)) hx]

theorem extractBraces_wrapped (pre mid post : List Char)
    (hpre : ∀ c ∈ pre, c ≠ '{') (hpost : ∀ c ∈ post, c ≠ '}')
    (hh : mid.head? = some '{') (hl : mid.getLast? = some '}') :
    extractBraces (pre ++ mid ++ post) = some mid := by
  cases mid with
  | nil => simp at hh
  | cons c0 mid' =>
    have hc0 : c0 = '{' := by simpa using hh
    subst hc0
    have hassoc : pre ++ ('{' :: mid') ++ post = pre ++ '{' :: (mid' ++ post) := by
      simp
    have htake : (pre ++ ('{' :: mid') ++ post).takeWhile (fun c => c ≠ '{') = pre := by
      rw [hassoc]
      exact takeWhile_append_cons _ pre '{' (mid' ++ post)
        (fun c hc => by simpa using hpre c hc) (by simp)
    have hdrop : (pre ++ ('{' :: mid') ++ post).drop pre.length = '{' :: (mid' ++ post) := by
      rw [hassoc]
      exact List.drop_left pre _
    obtain ⟨mr, hmr⟩ : ∃ mr, ('{' :: mid').reverse = '}' :: mr := by
      have h2 := List.head?_reverse ('{' :: mid')
      rw [hl] at h2
      cases hrw : ('{' :: mid').reverse with
      | nil => rw [hrw] at h2; simp at h2
      | cons c tl =>
        rw [hrw] at h2
        simp only [List.head?_cons, Option.some.injEq] at h2
        exact ⟨tl, by rw [h2]⟩
    have hrev : ('{' :: (mid' ++ post)).reverse = post.reverse ++ ('{' :: mid').reverse := by
      simp
    have htake2 : ('{' :: (mid' ++ post)).reverse.takeWhile (fun c => c ≠ '}') =
        post.reverse := by
      rw [hrev, hmr]
      exact takeWhile_append_cons _ post.reverse '}' mr
        (fun c hc => by simpa using hpost c (List.mem_reverse.mp hc)) (by simp)
    have hdrop2 : ('{' :: (mid' ++ post)).reverse.drop post.reverse.length =
        '}' :: mr := by
      rw [hrev, hmr]
      exact List.drop_left post.reverse _
    unfold extractBraces
    rw [htake]
    dsimp only
    rw [hdrop]
    dsimp only
    rw [htake2, hdrop2, ← hmr, List.reverse_reverse]
    simp

/-- Claim C8 (amended): the `/pack` parser first tries the whole cleaned text
as JSON; failing that it parses the substring running from the *first* opening
brace to the *last* closing brace (so a single JSON object surrounded by
brace-free commentary is recovered, and code fences are stripped by the
cleaning step); when the text holds no such substring it degrades to an empty
checklist with the cleaned text as notes; but when the extracted substring is
itself not valid JSON — e.g. commentary containing further braces — the inner
`JSON.parse` throws inside the catch block and the request fails instead of
degrading. -/
theorem C8_pack_json_extraction :
    (∀ pre mid post : List Char, (∀ c ∈ pre, c ≠ '{') → (∀ c ∈ post, c ≠ '}') →
      mid.head? = some '{' → mid.getLast? = some '}' →
      extractBraces (pre ++ mid ++ post) = some mid) ∧
    (∀ raw v, jparse (cleanText raw) = some v →
      packParse raw = some (shapeChecklist v, shapeNotes v)) ∧
    (∀ raw, jparse (cleanText raw) = none → extractBraces (cleanText raw) = none →
      packParse raw = some ([], cleanText raw)) ∧
    (∀ raw sub, jparse (cleanText raw) = none →
      extractBraces (cleanText raw) = some sub → jparse sub = none →
      packParse raw = none) ∧
    (∀ (raw pre mid post : List Char) (v : Json),
      cleanText raw = pre ++ mid ++ post →
      (∀ c ∈ pre, c ≠ '{') → (∀ c ∈ post, c ≠ '}') →
      mid.head? = some '{' → mid.getLast? = some '}' →
      jparse (cleanText raw) = none → jparse mid = some v →
      packParse raw = some (shapeChecklist v, shapeNotes v)) := by
  refine ⟨extractBraces_wrapped, ?_, ?_, ?_, ?_⟩
  · intro raw v h
    simp [packParse, h]
  · intro raw h1 h2
    simp [packParse, h1, h2]
  · intro raw sub h1 h2 h3
    simp [packParse, h1, h2, h3]
  · intro raw pre mid post v hsplit hpre hpost hh hl h1 h2
    have hex : extractBraces (cleanText raw) = some mid := by
      rw [hsplit]
      exact extractBraces_wrapped pre mid post hpre hpost hh hl
    simp [packParse, h1, hex, h2]

/-- Witness for C8: brace-free commentary around a JSON object is tolerated
and the object's notes are extracted. -/
theorem C8_witness :
    (cleanText ("note: \x7b\"notes\":\"hi\"\x7d ok".toList) =
        "note: ".toList ++ "\x7b\"notes\":\"hi\"\x7d".toList ++ " ok".toList ∧
      jparse (cleanText ("note: \x7b\"notes\":\"hi\"\x7d ok".toList)) = none ∧
      jparse ("\x7b\"notes\":\"hi\"\x7d".toList) =
        some (.obj [("notes".toList, .str "hi".toList)])) ∧
    packParse ("note: \x7b\"notes\":\"hi\"\x7d ok".toList) =
      some (shapeChecklist (.obj [("notes".toList, .str "hi".toList)]),
        shapeNotes (.obj [("notes".toList, .str "hi".toList)])) :=
  ⟨⟨rfl, rfl, rfl⟩,
    C8_pack_json_extraction.2.2.2.2 ("note: \x7b\"notes\":\"hi\"\x7d ok".toList)
      ("note: ".toList) ("\x7b\"notes\":\"hi\"\x7d".toList) (" ok".toList)
      (.obj [("notes".toList, .str "hi".toList)]) rfl (by decide) (by decide)
      rfl rfl rfl rfl⟩

/-- Counterexample for Claim C8 as stated: the four-character text `a{b}`
contains no valid JSON in any contiguous substring, yet the parser does not
degrade to `{checklist: [], notes: text}` — the greedy brace regex matches
`{b}`, the nested `JSON.parse` throws, and the request errors out. -/
theorem C8_counterexample :
    ((allSubstrings ("a\x7bb\x7d".toList)).all (fun s => (jparse s).isNone)) = true ∧
    packParse ("a\x7bb\x7d".toList) = none ∧
    packParse ("a\x7bb\x7d".toList) ≠ some ([], "a\x7bb\x7d".toList) := by
  refine ⟨rfl, rfl, ?_⟩
  intro h
  exact Option.noConfusion h
